import Mathlib

/-!
# Verification of the sauna-reserve availability monitor

Shallow embedding of the core of the `Makoto041/sauna-reserve` repository:

* the availability detector (`functions/src/lib/availability.ts`, current
  revision with time-slot extraction, plus the older revision kept under
  `src/functions/src/lib/availability.ts`),
* the fetch wrapper `checkAvailability`,
* the watch-scheduler polling cycle (`functions/src/handlers/watchScheduler.ts`,
  current revision) together with the Firestore state documents.

The TypeScript detector works by scanning HTML text with a handful of fixed
regular expressions.  Each regular expression is embedded here as an explicit
scanning function over `List Char`.  JavaScript strings are sequences of UTF-16
code units; every character relevant to the detector (ASCII markup, the marker
glyphs ●, ▲, × and Japanese text) lies in the Basic Multilingual Plane, so one
Lean `Char` corresponds to one UTF-16 code unit and index arithmetic (such as
the 300-unit context window below) coincides.  All structural regexes of the
source carry the `i` flag; their literals are matched here through ASCII case
folding (`lowerAscii`), which for ASCII pattern literals in a non-`u` regex is
exactly JavaScript's canonicalization.  The case-*sensitive* searches of the
source — `String.prototype.includes`, the flagless header date capture, and the
`g`-only day patterns of the generic fallback — stay case-sensitive.
-/

namespace SaunaReserve

/-- First index (if any) at which `pat` occurs as a contiguous sublist of `s`
(the index of the leftmost occurrence, as `String.indexOf` / a leading
unanchored regex search would find it). -/
def findSub (pat : List Char) : List Char → Option Nat
  | [] => if pat.isEmpty then some 0 else none
  | c :: rest =>
    if pat.isPrefixOf (c :: rest) then some 0
    else (findSub pat rest).map (· + 1)

/-- `String.prototype.includes` on character lists (case-sensitive, as
`includes` is). -/
def containsSub (pat s : List Char) : Bool :=
  (findSub pat s).isSome

/-- ASCII lower-casing of a character.  Every structural regex of the detector
carries the `i` flag; for a non-`u` regex JavaScript canonicalizes a character
via `toUpperCase`, with the rule that a non-ASCII character may never
canonicalize to an ASCII one.  For the ASCII pattern literals used here
(`<th`, `class="`, `cl-day`, `</table>`, …) that canonicalization is *exactly*
ASCII case folding — no non-ASCII character can match an ASCII letter, and
non-letter ASCII characters match only themselves — so this folding model is
not an approximation. -/
def lowerAscii (c : Char) : Char :=
  if 'A' ≤ c && c ≤ 'Z' then Char.ofNat (c.toNat + 32) else c

/-- Case-insensitive prefix test: `pat` (given in lower case) against the
ASCII-folded head of the text. -/
def ciPrefix : List Char → List Char → Bool
  | [], _ => true
  | _ :: _, [] => false
  | p :: ps, c :: cs => p == lowerAscii c && ciPrefix ps cs

/-- Case-insensitive leftmost occurrence of `pat` (an `i`-flagged literal). -/
def findSubCI (pat : List Char) : List Char → Option Nat
  | [] => if pat.isEmpty then some 0 else none
  | c :: rest =>
    if ciPrefix pat (c :: rest) then some 0
    else (findSubCI pat rest).map (· + 1)

/-- Case-insensitive `containsSub`. -/
def containsSubCI (pat s : List Char) : Bool :=
  (findSubCI pat s).isSome

/-- All offsets at which the `i`-flagged literal `pat` occurs inside `s`
(ascending, case-insensitive). -/
def occOffsetsCI (pat : List Char) : List Char → List Nat
  | [] => if pat.isEmpty then [0] else []
  | c :: rest =>
    (if ciPrefix pat (c :: rest) then [0] else []) ++ (occOffsetsCI pat rest).map (· + 1)

/-- The literal `class="` that each tag-matching regex looks for. -/
def classLit : List Char := "class=\"".data

/-- Backtracking step of the open-tag regex `<TAG[^>]*class="[^"]*CLS[^"]*"[^>]*>`
(all of which carry the `i` flag in the source): given the text `rest`
following the tag literal and the candidate offsets of `class="` (in the order
the greedy `[^>]*` backtracks through them, i.e. last first), return the
length of the open tag match relative to `rest`.  For a candidate offset the
attribute value is everything up to the next `"`; the candidate succeeds when
that value contains `cls` (case-insensitively), the closing quote exists and a
`>` follows (the trailing `[^>]*>`). -/
def pickClassAttr (cls : List Char) (rest : List Char) : List Nat → Option Nat
  | [] => none
  | k :: ks =>
    let after := rest.drop (k + 7)
    let val := after.takeWhile (fun c => c ≠ '"')
    if containsSubCI cls val && val.length < after.length then
      let tail2 := after.drop (val.length + 1)
      let rem := tail2.takeWhile (fun c => c ≠ '>')
      if rem.length < tail2.length then
        some (k + 7 + val.length + 1 + rem.length + 1)
      else pickClassAttr cls rest ks
    else pickClassAttr cls rest ks

/-- Anchored match of `<TAG[^>]*class="[^"]*CLS[^"]*"[^>]*>` (with the `i`
flag) at the head of `s`; returns the length of the match.  The tag literal,
the `class="` literal and the class name all match case-insensitively; the
character classes `[^>]` and `[^"]` are unaffected by the flag.  The greedy
`[^>]*` before `class="` cannot cross a `>`, so every viable `class="`
occurrence starts before the first `>` after the tag literal; greedy
backtracking visits them from the last one backwards. -/
def openTagLen (openLit cls : List Char) (s : List Char) : Option Nat :=
  if ciPrefix openLit s then
    let rest := s.drop openLit.length
    let run := rest.takeWhile (fun c => c ≠ '>')
    (pickClassAttr cls rest ((occOffsetsCI classLit run).reverse)).map
      (fun e => openLit.length + e)
  else none

/-- Anchored match of the element regex
`<TAG[^>]*class="[^"]*CLS[^"]*"[^>]*>[\s\S]*?</TAG>` (with the `i` flag): the
lazy body extends to the first case-insensitive closing literal after the open
tag.  Returns the matched substring. -/
def elementAt (openLit cls closeLit : List Char) (s : List Char) : Option (List Char) :=
  match openTagLen openLit cls s with
  | none => none
  | some oe =>
    match findSubCI closeLit (s.drop oe) with
    | none => none
    | some j => some (s.take (oe + j + closeLit.length))

/-- Global scan (`String.prototype.match` with the `g` flag): repeatedly find the
leftmost anchored match, emit it, and continue after its end.  `fuel` bounds the
recursion (the input length suffices since every step consumes at least one
character). -/
def scanAux (m : List Char → Option (List Char)) : Nat → List Char → List (List Char)
  | 0, _ => []
  | _ + 1, [] => []
  | fuel + 1, c :: rest =>
    match m (c :: rest) with
    | some mt => mt :: scanAux m fuel ((c :: rest).drop (max mt.length 1))
    | none => scanAux m fuel rest

/-- All matches of the anchored matcher `m` in `s`, left to right, non-overlapping. -/
def scanMatches (m : List Char → Option (List Char)) (s : List Char) : List (List Char) :=
  scanAux m s.length s

/-- First match of the anchored matcher `m` in `s` (a regex without the `g` flag). -/
def firstMatchIn (m : List Char → Option (List Char)) : List Char → Option (List Char)
  | [] => none
  | c :: rest =>
    match m (c :: rest) with
    | some mt => some mt
    | none => firstMatchIn m rest

/-- Header cells: all matches of `/<th[^>]*class="[^"]*cl-day[^"]*"[^>]*>[\s\S]*?<\/th>/gi`. -/
def thDayHeaders (h : List Char) : List (List Char) :=
  scanMatches (elementAt "<th".data "cl-day".data "</th>".data) h

/-- Data table: first match of
`/<table[^>]*class="[^"]*cl-container[^"]*"[^>]*>[\s\S]*?<\/table>/i`. -/
def containerOf (h : List Char) : Option (List Char) :=
  firstMatchIn (elementAt "<table".data "cl-container".data "</table>".data) h

/-- Anchored match of the `gi`-flagged `/<tr>[\s\S]*?<\/tr>/`: literal `<tr>`
(no attributes, any case), lazy body up to the first `</tr>` (any case). -/
def trElemAt (s : List Char) : Option (List Char) :=
  if ciPrefix "<tr>".data s then
    match findSubCI "</tr>".data (s.drop 4) with
    | none => none
    | some j => some (s.take (4 + j + 5))
  else none

/-- All rows of the container: `containerHtml.match(/<tr>[\s\S]*?<\/tr>/gi)`. -/
def trRows (c : List Char) : List (List Char) :=
  scanMatches trElemAt c

/-- Day cells in a row: `/<td[^>]*class="[^"]*cl-day[^"]*"[^>]*>[\s\S]*?<\/td>/gi`. -/
def tdDayCells (row : List Char) : List (List Char) :=
  scanMatches (elementAt "<td".data "cl-day".data "</td>".data) row

/-- Per-slot content cells: `/<div[^>]*class="[^"]*cl-day-content[^"]*"[^>]*>[\s\S]*?<\/div>/gi`. -/
def dayContentCells (c : List Char) : List (List Char) :=
  scanMatches (elementAt "<div".data "cl-day-content".data "</div>".data) c

/-- One-digit alternative `\d:\d{2}` of the time token. -/
def timeTok1 : List Char → Option (List Char × Nat)
  | a :: b :: c :: d :: _ =>
    if a.isDigit && b == ':' && c.isDigit && d.isDigit then some ([a, b, c, d], 4) else none
  | _ => none

/-- The capture `(\d{1,2}:\d{2})` anchored at the head: greedy, so the
two-digit-hour form is preferred. -/
def timeTok (l : List Char) : Option (List Char × Nat) :=
  match l with
  | a :: b :: c :: d :: e :: _ =>
    if a.isDigit && b.isDigit && c == ':' && d.isDigit && e.isDigit then
      some ([a, b, c, d, e], 5)
    else timeTok1 l
  | _ => timeTok1 l

/-- Anchored match of `<span[^>]*>(\d{1,2}:\d{2})<\/span>` (part of the
`i`-flagged row-time regex, so the `span` literals match any case): returns the
captured time text and the match length. -/
def spanTimeAt (s : List Char) : Option (List Char × Nat) :=
  if ciPrefix "<span".data s then
    let rest := s.drop 5
    let run := rest.takeWhile (fun c => c ≠ '>')
    if run.length < rest.length then
      let after := rest.drop (run.length + 1)
      match timeTok after with
      | some (tok, tlen) =>
        if ciPrefix "</span>".data (after.drop tlen) then
          some (tok, 5 + run.length + 1 + tlen + 7)
        else none
      | none => none
    else none
  else none

/-- Lazy search for the time span inside a `cl-time` cell: the first
`<span…>(\d{1,2}:\d{2})</span>` that is still followed by a `</td>` of any case
(the second lazy gap of the `i`-flagged row-time regex must be able to reach
the cell's closing tag). -/
def findSpanTimeClosed : Nat → List Char → Option (List Char)
  | 0, _ => none
  | _ + 1, [] => none
  | fuel + 1, c :: rest =>
    match spanTimeAt (c :: rest) with
    | some (tok, tlen) =>
      if containsSubCI "</td>".data ((c :: rest).drop tlen) then some tok
      else findSpanTimeClosed fuel rest
    | none => findSpanTimeClosed fuel rest

/-- Search step for the row-time regex
`/<td[^>]*class="[^"]*cl-time[^"]*"[^>]*>[\s\S]*?<span[^>]*>(\d{1,2}:\d{2})<\/span>[\s\S]*?<\/td>/i`:
leftmost start at which a `cl-time` open tag is followed by a closed time span. -/
def rowTimeAux : Nat → List Char → Option (List Char)
  | 0, _ => none
  | _ + 1, [] => none
  | fuel + 1, c :: rest =>
    match openTagLen "<td".data "cl-time".data (c :: rest) with
    | some oe =>
      match findSpanTimeClosed ((c :: rest).drop oe).length ((c :: rest).drop oe) with
      | some tok => some tok
      | none => rowTimeAux fuel rest
    | none => rowTimeAux fuel rest

/-- The captured time label of a data row (`row.match(timeRegex)[1]`), if any. -/
def rowTime (row : List Char) : Option (List Char) :=
  rowTimeAux row.length row

/-- Availability markers: `cell.includes("●") || cell.includes("▲")`. -/
def hasMarker (l : List Char) : Bool :=
  l.contains '●' || l.contains '▲'

/-- Anchored match length of `>\d{1,2}<` (the effective day-number pattern of
`checkDayAvailabilityGeneric`'s inner `matchAll`; the second alternative
`>\d{1,2}<\/` of the source alternation never fires because the first
alternative matches a prefix of it). -/
def dayNumLen (l : List Char) : Option Nat :=
  match l with
  | '>' :: a :: rest =>
    if a.isDigit then
      match rest with
      | b :: rest2 =>
        if b.isDigit then
          match rest2 with
          | '<' :: _ => some 4
          | _ => none
        else if b == '<' then some 3 else none
      | [] => none
    else none
  | _ => none

/-- Indices of the non-overlapping matches of `>\d{1,2}<` in a context window
(`context.matchAll(/>\d{1,2}<|>\d{1,2}<\//g)`). -/
def dayNumIdxs : Nat → Nat → List Char → List Nat
  | 0, _, _ => []
  | _ + 1, _, [] => []
  | fuel + 1, i, c :: rest =>
    match dayNumLen (c :: rest) with
    | some len => i :: dayNumIdxs fuel (i + len) ((c :: rest).drop len)
    | none => dayNumIdxs fuel (i + 1) rest

/-- End of the search window inside a context: the index of the *second*
day-number match (the first is the target day itself and is skipped), or the
whole context when there is no second match. -/
def searchEndIn (context : List Char) : Nat :=
  match dayNumIdxs context.length 0 context with
  | _ :: i :: _ => i
  | _ => context.length

/-- The `exec` loop of `checkDayAvailabilityGeneric` for one literal day pattern:
at each occurrence take the next 300 code units, truncate at the next
day-number match, and test for a marker glyph; `lastIndex` advances past each
occurrence. -/
def genericDayLoop (pat : List Char) : Nat → List Char → Bool
  | 0, _ => false
  | _ + 1, [] => false
  | fuel + 1, c :: rest =>
    if pat.isPrefixOf (c :: rest) then
      let context := (c :: rest).take 300
      let searchContext := context.take (searchEndIn context)
      if hasMarker searchContext then true
      else genericDayLoop pat fuel ((c :: rest).drop (max pat.length 1))
    else genericDayLoop pat fuel rest

/-- `checkDayAvailabilityGeneric(html, day)`: the fallback detection that looks
for the day number with a marker glyph nearby.  `dayStr` is the JavaScript
string rendering `String(day)` of the parsed day.  The two literal patterns
`>DAY<` and `>DAY</` are tried in order (the source returns as soon as either
loop finds a marker). -/
def checkDayAvailabilityGeneric (html : List Char) (dayStr : List Char) : Bool :=
  let pat1 : List Char := '>' :: (dayStr ++ ['<'])
  let pat2 : List Char := '>' :: (dayStr ++ ['<', '/'])
  genericDayLoop pat1 html.length html || genericDayLoop pat2 html.length html

/-- Day part `\d{1,2}` followed by `<` of the header date token (greedy: two
digits preferred; a failed two-digit parse cannot be rescued by the one-digit
alternative because the following character is then a digit, not `<`). -/
def dayPartAt (l : List Char) : Option (List Char) :=
  match l with
  | c :: rest =>
    if c.isDigit then
      match rest with
      | d :: rest2 =>
        if d.isDigit then
          match rest2 with
          | '<' :: _ => some [c, d]
          | _ => none
        else if d == '<' then some [c] else none
      | [] => none
    else none
  | [] => none

/-- The capture `(\d{1,2}\/\d{1,2})` of the header date regex, anchored right
after a `>`. -/
def mdTokenAt (l : List Char) : Option (List Char) :=
  match l with
  | a :: rest =>
    if a.isDigit then
      match rest with
      | b :: rest2 =>
        if b.isDigit then
          match rest2 with
          | '/' :: rest3 => (dayPartAt rest3).map (fun dp => [a, b, '/'] ++ dp)
          | _ => none
        else if b == '/' then (dayPartAt rest2).map (fun dp => [a, '/'] ++ dp)
        else none
      | [] => none
    else none
  | [] => none

/-- First match capture of `/>(\d{1,2}\/\d{1,2})</` in a header cell. -/
def firstDateToken : Nat → List Char → Option (List Char)
  | 0, _ => none
  | _ + 1, [] => none
  | fuel + 1, '>' :: rest =>
    match mdTokenAt rest with
    | some tok => some tok
    | none => firstDateToken fuel rest
  | fuel + 1, _ :: rest => firstDateToken fuel rest

/-- Loop body of `findDateColumnIndex`: each header either contains
`>M/D<` / `>M/D(` literally, or its first `>(\d{1,2}\/\d{1,2})<` capture equals
the date string; the first matching header's index wins. -/
def findDateColumnIndexAux (dateStr : List Char) : List (List Char) → Nat → Option Nat
  | [], _ => none
  | h :: hs, i =>
    if containsSub ('>' :: (dateStr ++ ['<'])) h || containsSub ('>' :: (dateStr ++ ['('])) h then
      some i
    else
      match firstDateToken h.length h with
      | some tok => if tok == dateStr then some i else findDateColumnIndexAux dateStr hs (i + 1)
      | none => findDateColumnIndexAux dateStr hs (i + 1)

/-- `findDateColumnIndex(html, month, day)`: 0-based index of the header column
whose text shows `"{month}/{day}"`.  The source encodes "not found" as `-1`;
here it is `none`.  `month` and `day` are the JavaScript string renderings of
the parsed numbers (see `jsParseIntString`). -/
def findDateColumnIndex (html : List Char) (month day : List Char) : Option Nat :=
  let dateStr := month ++ ('/' :: day)
  findDateColumnIndexAux dateStr (thDayHeaders html) 0

/-- `getColumnAvailableTimeSlots(html, columnIndex)`: inside the `cl-container`
table, walk each `<tr>` row; a row contributes its captured time label when the
`cl-day` cell at `columnIndex` carries a marker glyph. -/
def getColumnAvailableTimeSlots (html : List Char) (columnIndex : Nat) : List String :=
  match containerOf html with
  | none => []
  | some container =>
    (trRows container).filterMap (fun row =>
      match rowTime row with
      | none => none
      | some t =>
        match (tdDayCells row)[columnIndex]? with
        | some cell => if hasMarker cell then some (String.mk t) else none
        | none => none)

/-- `checkColumnAvailability(html, columnIndex)` of the *older* detector
revision (`src/functions/src/lib/availability.ts`): same row walk, but no time
label is required — any marker in the column's cell suffices. -/
def checkColumnAvailability (html : List Char) (columnIndex : Nat) : Bool :=
  match containerOf html with
  | none => false
  | some container =>
    (trRows container).any (fun row =>
      match (tdDayCells row)[columnIndex]? with
      | some cell => hasMarker cell
      | none => false)

/-- JavaScript whitespace skipped by `parseInt` (the ASCII cases; exotic Unicode
whitespace is not modelled — no caller produces it). -/
def jsSpace (c : Char) : Bool :=
  c == ' ' || c == '\t' || c == '\n' || c == '\r'

/-- Decimal digits to a natural number. -/
def digitsToNat : List Char → Nat → Nat
  | [], acc => acc
  | c :: rest, acc => digitsToNat rest (acc * 10 + (c.toNat - '0'.toNat))

/-- `String(parseInt(s, 10))`: the decimal rendering of `parseInt`'s result,
`"NaN"` when no digits are found.  (The hexadecimal `0x` prefix of `parseInt`
is not modelled; no caller feeds it.)  `String(-0)` is `"0"`. -/
def jsParseIntString (s : String) : String :=
  let l := s.data.dropWhile jsSpace
  let signStr : Bool × List Char :=
    match l with
    | '-' :: rest => (true, rest)
    | '+' :: rest => (false, rest)
    | _ => (false, l)
  let digits := signStr.2.takeWhile Char.isDigit
  if digits.isEmpty then "NaN"
  else
    let n := digitsToNat digits 0
    if signStr.1 && n ≠ 0 then "-" ++ toString n else toString n

/-- `targetDate.split("-")` (single-character separator). -/
def splitDash : List Char → List (List Char)
  | [] => [[]]
  | c :: rest =>
    let r := splitDash rest
    if c == '-' then [] :: r
    else
      match r with
      | h :: t => (c :: h) :: t
      | [] => [[c]]

/-- `const [, month, day] = targetDate.split("-").map((s) => parseInt(s, 10))`,
with the numbers kept as their JavaScript string renderings (a destructured
element that does not exist renders as `"undefined"`). -/
def parseMonthDayStrings (targetDate : String) : String × String :=
  let parts := (splitDash targetDate.data).map (fun p => jsParseIntString (String.mk p))
  (parts.getD 1 "undefined", parts.getD 2 "undefined")

/-- Result of availability detection (`AvailabilityResult` in the source). -/
structure AvailabilityResult where
  hasAvailability : Bool
  timeSlots : List String
deriving DecidableEq, Repr

/-- The no-date-filter branch shared verbatim by both detector revisions: scan
only `cl-day-content` cells of the `cl-container` table; without a container,
fall back to the tightly-wrapped whole-text scan `>●<` / `>▲<`. -/
def noDateDetect (h : List Char) : AvailabilityResult :=
  match containerOf h with
  | some container => ⟨(dayContentCells container).any hasMarker, []⟩
  | none => ⟨containsSub ">●<".data h || containsSub ">▲<".data h, []⟩

/-- `detectAvailabilityWithSlots(html, targetDate?)` (current revision).  An
absent *or empty* target date string is falsy in JavaScript and selects the
no-filter branch.  With a date: locate the header column; if found, the column
slot walk decides (`hasAvailability = timeSlots.length > 0`); otherwise fall
back to the generic day detection with an empty slot list. -/
def detectAvailabilityWithSlots (html : String) (targetDate : Option String) : AvailabilityResult :=
  match targetDate with
  | none => noDateDetect html.data
  | some td =>
    if td == "" then noDateDetect html.data
    else
      let md := parseMonthDayStrings td
      match findDateColumnIndex html.data md.1.data md.2.data with
      | some i =>
        let slots := getColumnAvailableTimeSlots html.data i
        ⟨!slots.isEmpty, slots⟩
      | none => ⟨checkDayAvailabilityGeneric html.data md.2.data, []⟩

/-- `detectAvailability(html, targetDate?)` (current revision): the boolean
projection of `detectAvailabilityWithSlots`. -/
def detectAvailability (html : String) (targetDate : Option String) : Bool :=
  (detectAvailabilityWithSlots html targetDate).hasAvailability

/-- `detectAvailability(html, targetDate?)` of the *older* revision
(`src/functions/src/lib/availability.ts`): identical no-filter branch; with a
date, a missing header column yields `false` (no generic fallback), and a found
column is decided by `checkColumnAvailability`. -/
def detectAvailabilityOld (html : String) (targetDate : Option String) : Bool :=
  match targetDate with
  | none => (noDateDetect html.data).hasAvailability
  | some td =>
    if td == "" then (noDateDetect html.data).hasAvailability
    else
      let md := parseMonthDayStrings td
      match findDateColumnIndex html.data md.1.data md.2.data with
      | some i => checkColumnAvailability html.data i
      | none => false

/-! ## Fetcher (`checkAvailability`) -/

/-- Result of `checkAvailability` (`CheckAvailabilityResult` in the source). -/
structure CheckAvailabilityResult where
  hasAvailability : Bool
  timeSlots : List String
  error : Option String
deriving DecidableEq, Repr

/-- The observable part of a `fetch` response used by `checkAvailability`. -/
structure HttpResponse where
  ok : Bool
  status : Nat
  statusText : String
  body : String
deriving DecidableEq, Repr

/-- The fixed reservation-page URL (`TARGET_URL`). -/
def TARGET_URL : String :=
  "https://select-type.com/rsv/?id=0AEeQuFE0HM"

/-- URL construction of `checkAvailability`: a truthy (non-empty) target date
appends `&date=` with every dash stripped (the source's global dash replace). -/
def buildUrl (targetDate : Option String) : String :=
  match targetDate with
  | some d =>
    if d == "" then TARGET_URL
    else TARGET_URL ++ "&date=" ++ String.mk (d.data.filter (fun c => c ≠ '-'))
  | none => TARGET_URL

/-- `checkAvailability(targetDate?)` (current revision).  The network is an
explicit parameter: `net url` is either a transport failure with a message
(which the source `catch` turns into a `Fetch error: …` result) or a response.
A non-ok response yields the `HTTP status: statusText` error; a success
delegates to the detector and passes its verdict through unchanged.  The
embedding is a total function — nothing escapes as an exception. -/
def checkAvailability (net : String → Except String HttpResponse)
    (targetDate : Option String) : CheckAvailabilityResult :=
  match net (buildUrl targetDate) with
  | .error msg => ⟨false, [], some ("Fetch error: " ++ msg)⟩
  | .ok resp =>
    if !resp.ok then
      ⟨false, [], some ("HTTP " ++ toString resp.status ++ ": " ++ resp.statusText)⟩
    else
      let r := detectAvailabilityWithSlots resp.body targetDate
      ⟨r.hasAvailability, r.timeSlots, none⟩

/-! ## Firestore documents and the watch cycle

The current `watchScheduler` handler is embedded as a pure function of the
documents it reads, the clock, and the per-date fetch results.  The fetcher is
passed as an oracle `Option String → CheckAvailabilityResult` (the cycle treats
`checkAvailability` as an external collaborator; its internals are verified
separately above). -/

/-- `watch/config` document (`WatchConfigDoc`).  The `updatedAt` bookkeeping
field is not read by the scheduler and is omitted. -/
structure WatchConfigDoc where
  enabled : Bool
  intervalMinutes : Option Int
  targetDates : Option (List String)
deriving DecidableEq, Repr

/-- `watch/state` document (`WatchStateDoc`). -/
structure WatchStateDoc where
  has : Bool
  checkedAt : Int
  lastNotifiedAt : Option Int
  checkedTargetDates : Option (List String)
deriving DecidableEq, Repr

/-- `line/target` document (`LineTargetDoc`); only `userId` is read.  `none`
models an absent field, and the empty string is falsy for the recipient gate. -/
structure LineTargetDoc where
  userId : Option String
deriving DecidableEq, Repr

/-- JavaScript truthiness of an optional string (`undefined` and `""` are falsy). -/
def jsTruthyStr (s : Option String) : Bool :=
  match s with
  | none => false
  | some t => t != ""

/-- Modelled from the spec: `updateWatchState(has, notified, currentTargetDates)`,
the current three-parameter revision of `lib/firestore.ts`.  The repository's
`src/` holds only an older two-parameter revision (which predates
`checkedTargetDates` and could not even typecheck against the current
scheduler's three-argument call), so the write is modelled from the spec's
Persist step: store `hasAvailability`, `checkedAt = now`,
`checkedTargetDates = current configured set`, and `lastNotifiedAt = now` iff a
notification was attempted; the Firestore `{ merge: true }` write preserves the
previous `lastNotifiedAt` otherwise. -/
def updateWatchState (prev : Option WatchStateDoc) (has notified : Bool)
    (currentTargetDates : List String) (now : Int) : WatchStateDoc where
  has := has
  checkedAt := now
  lastNotifiedAt := if notified then some now else prev.bind (·.lastNotifiedAt)
  checkedTargetDates := some currentTargetDates

/-- The interval gate (Step 1.5).  The source computes
`elapsedMinutes = (startTime - state.checkedAt) / 60000` in double precision
and skips when `elapsedMinutes < intervalMinutes - 0.5`; for timestamps in the
double-safe range this comparison equals the exact rational comparison
`(now - checkedAt) * 2 < (2 * intervalMinutes - 1) * 60000`, which is what is
embedded (the gap between distinct comparands, 1/60000 min, dwarfs the rounding
of the division).  A zero `checkedAt` is falsy in `if (state?.checkedAt)`, so
the gate is then skipped. -/
def intervalGateSkips (cfg : WatchConfigDoc) (st : Option WatchStateDoc) (now : Int) : Bool :=
  match st with
  | none => false
  | some s =>
    if s.checkedAt == 0 then false
    else decide ((now - s.checkedAt) * 2 < (2 * cfg.intervalMinutes.getD 2 - 1) * 60000)

/-- Steps 1–2 of the cycle: the enabled gate (`!config?.enabled`), the interval
gate, and the recipient gate (`!target?.userId`), in the source's
short-circuit order.  Every early exit produces the same observable outcome
(no fetch, no notification, no write). -/
def passesGates (cfg : Option WatchConfigDoc) (st : Option WatchStateDoc)
    (tgt : Option LineTargetDoc) (now : Int) : Bool :=
  match cfg with
  | none => false
  | some c =>
    c.enabled && !intervalGateSkips c st now && jsTruthyStr (tgt.bind (·.userId))

/-- JavaScript truthiness of the optional `error` field (`if (result.error)`). -/
def jsTruthyErr (e : Option String) : Bool :=
  match e with
  | none => false
  | some s => s != ""

/-- Step 3 (Evaluation).  With a non-empty date list, each date is fetched and
`hasAvailability` accumulates as an OR over the dates whose fetch reported no
(truthy) error — an errored date is logged and skipped (`continue`).  With an
empty list a single unfiltered fetch is made, and an error there aborts the
cycle (`return`), encoded as `none`. -/
def observeAvailability (tds : List String)
    (fetch : Option String → CheckAvailabilityResult) : Option Bool :=
  if tds.isEmpty then
    let r := fetch none
    if jsTruthyErr r.error then none else some r.hasAvailability
  else
    some (tds.any (fun d =>
      let r := fetch (some d)
      !jsTruthyErr r.error && r.hasAvailability))

/-- Observable outcome of one scheduler invocation: the list of fetch calls
made against the target page (in order, `none` = unfiltered), the number of
notification push attempts, and the state document written (if any).  A push
failure does not change these observables (the source catches it and persists
anyway), so the push result is not a parameter. -/
structure CycleOut where
  fetches : List (Option String)
  notifies : Nat
  write : Option WatchStateDoc
deriving DecidableEq, Repr

/-- Insertion into a `≤`-sorted list (stable). -/
def insertSorted (x : String) : List String → List String
  | [] => [x]
  | y :: ys => if y < x then y :: insertSorted x ys else x :: y :: ys

/-- `[...dates].sort().join(",")`: the normalization key used for the drift
check.  JavaScript's default sort is lexicographic on UTF-16 code units, which
for the BMP strings involved coincides with Lean's `String` order. -/
def sortJoinKey (ds : List String) : String :=
  String.intercalate "," (ds.foldr insertSorted [])

/-- One invocation of the `watchScheduler` handler (current revision), as a
function of the three documents read, the clock `now` (`startTime`, also the
`Date.now()` of the persist step) and the fetch oracle.  Mirrors the source's
step order: gates, per-date evaluation, drift check
(`checkedTargetDates ?? []` against `targetDates ?? []` via sorted
comma-joined keys), rising-edge notification decision, and the state write. -/
def runCycle (cfg : Option WatchConfigDoc) (st : Option WatchStateDoc)
    (tgt : Option LineTargetDoc) (now : Int)
    (fetch : Option String → CheckAvailabilityResult) : CycleOut :=
  match cfg with
  | none => ⟨[], 0, none⟩
  | some c =>
    if passesGates (some c) st tgt now then
      let tds := c.targetDates.getD []
      match observeAvailability tds fetch with
      | none => ⟨[none], 0, none⟩
      | some hasAvail =>
        let previousTargetDates := (st.bind (·.checkedTargetDates)).getD []
        let changed := sortJoinKey previousTargetDates != sortJoinKey tds
        let had := if changed then false else (st.map (·.has)).getD false
        let shouldNotify := !had && hasAvail
        ⟨if tds.isEmpty then [none] else tds.map some,
         if shouldNotify then 1 else 0,
         some (updateWatchState st hasAvail shouldNotify tds now)⟩
    else ⟨[], 0, none⟩

/-! ## Concrete fixtures

The calendar markup mirrors the repository's own test fixture generator
(`createSelectTypeHtml` in the test suite): a `cl-header` table with `cl-day`
header cells showing `1/2`, `1/3`, `1/4`, and a `cl-container` data table whose
single `12:00` row has a ● in column 1 only. -/

/-- Markup with no SelectType header at all but a day number next to a marker. -/
def htmlNoHeader : String := "<div>3</div><span>●</span>"

/-- SelectType-shaped week view: header `1/2 1/3 1/4`, one `12:00` row, marker
● in column 1 (the `1/3` column). -/
def htmlWeek : String :=
  "<table class=\"cl-header\"><tr><th class=\"cl-time\">&nbsp;</th><th class=\"cl-day\"><span>1/2<span>(a)</span></span></th><th class=\"cl-day\"><span>1/3<span>(b)</span></span></th><th class=\"cl-day\"><span>1/4<span>(c)</span></span></th></tr></table><div><table class=\"cl-container\"><tbody><tr><td class=\"cl-time\"><span>12:00</span></td><td class=\"cl-day\"><div class=\"cl-day-content\">×</div></td><td class=\"cl-day\"><div class=\"cl-day-content\">●</div></td><td class=\"cl-day\"><div class=\"cl-day-content\">×</div></td></tr></tbody></table></div>"

/-- Markup whose legend (outside the data region) shows ● and ▲ while the data
region itself holds only the closed glyph ×. -/
def htmlLegendOnly : String :=
  "<div class=\"cl-sign\"><span>●</span><span>▲</span></div><table class=\"cl-container\"><tbody><tr><td class=\"cl-day\"><div class=\"cl-day-content\"><span>×</span></div></td></tr></tbody></table>"

/-- The `cl-container` element of `htmlLegendOnly` (its data region). -/
def legendContainer : String :=
  "<table class=\"cl-container\"><tbody><tr><td class=\"cl-day\"><div class=\"cl-day-content\"><span>×</span></div></td></tr></tbody></table>"

/-- Upper-case data region (`<TABLE CLASS="cl-container">`) holding only the
closed glyph, followed by a `>●<` legend outside it.  The `i`-flagged container
regex locates this container, so the verdict must come from its cells (false)
and not from the whole-text fallback (which would see the legend's `>●<`). -/
def htmlUpperContainer : String :=
  "<TABLE CLASS=\"cl-container\"><TBODY><TR><TD class=\"cl-day\"><DIV class=\"cl-day-content\"><SPAN>×</SPAN></DIV></TD></TR></TBODY></TABLE><span>●</span>"

/-- Mixed-case week: an upper-case `<TH class="cl-day">1/2</TH>` header before a
lower-case `1/3` header, and a data row whose `1/3` column (index 1, counting
the upper-case header) carries ● at `12:00` behind upper-case `TD`/`DIV`/`SPAN`
tags and a `CL-DAY` class value.  Exercises the `i` flag of every structural
regex: header indexing, container location, row/cell splitting and the time
capture. -/
def htmlMixedWeek : String :=
  "<TH class=\"cl-day\"><span>1/2<span>(a)</span></span></TH><th class=\"cl-day\"><span>1/3<span>(b)</span></span></th><TABLE CLASS=\"CL-CONTAINER\"><TR><TD class=\"cl-time\"><SPAN>12:00</SPAN></TD><td class=\"CL-DAY\"><div class=\"cl-day-content\">×</div></td><TD CLASS=\"cl-day\"><DIV CLASS=\"cl-day-content\">●</DIV></TD></TR></TABLE>"

/-- Concrete watch configuration: enabled, 2-minute interval, one target date. -/
def cfgW : WatchConfigDoc := ⟨true, some 2, some ["2025-01-15"]⟩

/-- Concrete prior state: no availability, same date set as `cfgW`. -/
def s0W : WatchStateDoc := ⟨false, 0, none, some ["2025-01-15"]⟩

/-- Concrete registered recipient. -/
def tgtW : LineTargetDoc := ⟨some "U1"⟩

/-- Fetch oracle that always reports availability. -/
def fW : Option String → CheckAvailabilityResult := fun _ => ⟨true, ["12:00"], none⟩

/-- Fetch oracle that fails for 2025-01-16 and reports availability otherwise. -/
def fErr : Option String → CheckAvailabilityResult := fun d =>
  if d == some "2025-01-16" then ⟨false, [], some "HTTP 500: err"⟩ else ⟨true, [], none⟩

/-- Fetch oracle that always fails. -/
def fAbort : Option String → CheckAvailabilityResult := fun _ =>
  ⟨false, [], some "HTTP 500: err"⟩

end SaunaReserve

namespace SaunaReserve

set_option maxRecDepth 10000

/-- C7: a cycle with the watch configuration absent or `enabled = false` exits
with zero fetches against the target page, zero notification attempts and no
state write. -/
theorem disabled_cycle_no_effects (cfg : Option WatchConfigDoc) (st : Option WatchStateDoc)
    (tgt : Option LineTargetDoc) (now : Int) (fetch : Option String → CheckAvailabilityResult)
    (h : cfg = none ∨ ∃ c, cfg = some c ∧ c.enabled = false) :
    runCycle cfg st tgt now fetch = ⟨[], 0, none⟩ := by
  rcases h with rfl | ⟨c, rfl, hc⟩
  · rfl
  · simp [runCycle, passesGates, hc]

/-- Witness for C7 at a concrete disabled configuration. -/
theorem disabled_cycle_no_effects_witness :
    runCycle (some ⟨false, some 2, some ["2025-01-15"]⟩) (some s0W) (some tgtW) 0 fW
      = ⟨[], 0, none⟩ :=
  disabled_cycle_no_effects _ _ _ _ _ (Or.inr ⟨_, rfl, rfl⟩)

/-- C8: with monitoring enabled and a prior (truthy) `checkedAt`, a cycle whose
elapsed time is inside the `intervalMinutes − 0.5` grace band exits without
fetching the target page and without writing state. -/
theorem interval_gate_blocks_fetch (c : WatchConfigDoc) (s : WatchStateDoc)
    (tgt : Option LineTargetDoc) (now : Int) (fetch : Option String → CheckAvailabilityResult)
    (_hen : c.enabled = true) (hca : s.checkedAt ≠ 0)
    (hlt : (now - s.checkedAt) * 2 < (2 * c.intervalMinutes.getD 2 - 1) * 60000) :
    runCycle (some c) (some s) tgt now fetch = ⟨[], 0, none⟩ := by
  have hskip : intervalGateSkips c (some s) now = true := by
    simp [intervalGateSkips, hca, hlt]
  simp [runCycle, passesGates, hskip]

/-- Witness for C8: one minute elapsed against a 2-minute interval. -/
theorem interval_gate_blocks_fetch_witness :
    runCycle (some ⟨true, some 2, none⟩) (some ⟨false, 600000, none, none⟩)
      (some tgtW) 660000 fW = ⟨[], 0, none⟩ :=
  interval_gate_blocks_fetch _ _ _ _ _ rfl (by decide) (by decide)

/-- C1: whenever a cycle persists a state document, the stored
`checkedTargetDates` is exactly the configured target-date set, and the fetches
of that same cycle were exactly over that set (one unfiltered fetch when the
set is empty). -/
theorem persist_checkedTargetDates_eq_config (cfg : Option WatchConfigDoc)
    (st : Option WatchStateDoc) (tgt : Option LineTargetDoc) (now : Int)
    (fetch : Option String → CheckAvailabilityResult) (s' : WatchStateDoc)
    (h : (runCycle cfg st tgt now fetch).write = some s') :
    s'.checkedTargetDates = some ((cfg.bind (fun c => c.targetDates)).getD []) ∧
    (runCycle cfg st tgt now fetch).fetches =
      (if ((cfg.bind (fun c => c.targetDates)).getD []).isEmpty then [none]
       else ((cfg.bind (fun c => c.targetDates)).getD []).map some) := by
  cases cfg with
  | none => simp [runCycle] at h
  | some c =>
    by_cases hg : passesGates (some c) st tgt now
    · rcases hobs : observeAvailability (c.targetDates.getD []) fetch with _ | b
      · simp [runCycle, hg, hobs] at h
      · simp only [runCycle, hg, if_true, hobs, Option.some.injEq] at h ⊢
        subst h
        simp [updateWatchState, Option.bind_eq_bind]
    · simp [runCycle, hg] at h

/-- Witness for C1 at a concrete persisting cycle. -/
theorem persist_checkedTargetDates_eq_config_witness :
    (⟨true, 600000, some 600000, some ["2025-01-15"]⟩ : WatchStateDoc).checkedTargetDates =
      some (((some cfgW).bind (fun c => c.targetDates)).getD []) ∧
    (runCycle (some cfgW) (some s0W) (some tgtW) 600000 fW).fetches =
      (if (((some cfgW).bind (fun c => c.targetDates)).getD []).isEmpty then [none]
       else (((some cfgW).bind (fun c => c.targetDates)).getD []).map some) :=
  persist_checkedTargetDates_eq_config (some cfgW) (some s0W) (some tgtW) 600000 fW
    ⟨true, 600000, some 600000, some ["2025-01-15"]⟩ (by decide)

/-- C6: past the gates, a non-empty configured date set makes the cycle fetch
every date, skip errored dates from the OR-accumulation (the persisted
`hasAvailability` is the OR over the error-free dates only), and still persist;
an empty date set with a failed unfiltered fetch aborts the cycle with no state
write at all. -/
theorem per_date_error_skip_vs_empty_abort (c : WatchConfigDoc) (st : Option WatchStateDoc)
    (tgt : Option LineTargetDoc) (now : Int) (fetch : Option String → CheckAvailabilityResult)
    (hg : passesGates (some c) st tgt now = true) :
    (∀ ds, c.targetDates = some ds → ds ≠ [] →
      (runCycle (some c) st tgt now fetch).fetches = ds.map some ∧
      ∃ s', (runCycle (some c) st tgt now fetch).write = some s' ∧
        s'.has = ds.any (fun d =>
          !jsTruthyErr (fetch (some d)).error && (fetch (some d)).hasAvailability)) ∧
    (c.targetDates.getD [] = [] → jsTruthyErr (fetch none).error = true →
      runCycle (some c) st tgt now fetch = ⟨[none], 0, none⟩) := by
  constructor
  · intro ds hds hne
    have hemp : ds.isEmpty = false := by
      cases ds with
      | nil => exact absurd rfl hne
      | cons a l => rfl
    simp [runCycle, hg, hds, observeAvailability, hemp, updateWatchState]
  · intro hemp herr
    simp [runCycle, hg, hemp, observeAvailability, herr]

/-- Witness for C6: one errored date among two is skipped; an empty set with a
failed fetch aborts. -/
theorem per_date_error_skip_vs_empty_abort_witness :
    (runCycle (some ⟨true, some 2, some ["2025-01-15", "2025-01-16"]⟩) none (some tgtW) 0 fErr).fetches
        = [some "2025-01-15", some "2025-01-16"] ∧
    runCycle (some ⟨true, some 2, none⟩) none (some tgtW) 0 fAbort = ⟨[none], 0, none⟩ := by
  have h1 := (per_date_error_skip_vs_empty_abort ⟨true, some 2, some ["2025-01-15", "2025-01-16"]⟩
    none (some tgtW) 0 fErr (by decide)).1 ["2025-01-15", "2025-01-16"] rfl (by decide)
  have h2 := (per_date_error_skip_vs_empty_abort ⟨true, some 2, none⟩
    none (some tgtW) 0 fAbort (by decide)).2 rfl (by decide)
  exact ⟨h1.1, h2⟩

/-- C3: under an unchanged configured date set, a cycle that starts from
`hasAvailability = false` and observes availability makes exactly one
notification attempt and persists `lastNotifiedAt = now`; a second consecutive
cycle (run from the state the first one wrote) that observes availability again
makes zero attempts.  In general the attempt count follows the rising edge
`shouldNotify = !previousHasAvailability && currentHasAvailability`. -/
theorem rising_edge_notifies_once
    (c : WatchConfigDoc) (s0 : WatchStateDoc) (tgt : Option LineTargetDoc)
    (now1 now2 : Int) (fetch1 fetch2 : Option String → CheckAvailabilityResult)
    (hg1 : passesGates (some c) (some s0) tgt now1 = true)
    (h0 : s0.has = false)
    (hsame : sortJoinKey (s0.checkedTargetDates.getD []) = sortJoinKey (c.targetDates.getD []))
    (hobs1 : observeAvailability (c.targetDates.getD []) fetch1 = some true)
    (hg2 : passesGates (some c) (runCycle (some c) (some s0) tgt now1 fetch1).write tgt now2 = true)
    (hobs2 : observeAvailability (c.targetDates.getD []) fetch2 = some true) :
    (runCycle (some c) (some s0) tgt now1 fetch1).notifies = 1 ∧
    (runCycle (some c) (some s0) tgt now1 fetch1).write.map (fun s => s.lastNotifiedAt)
      = some (some now1) ∧
    (runCycle (some c) (runCycle (some c) (some s0) tgt now1 fetch1).write tgt now2 fetch2).notifies
      = 0 ∧
    (∀ (st : Option WatchStateDoc) (now : Int)
        (fetch : Option String → CheckAvailabilityResult) (b : Bool),
      passesGates (some c) st tgt now = true →
      sortJoinKey ((st.bind (fun s => s.checkedTargetDates)).getD [])
        = sortJoinKey (c.targetDates.getD []) →
      observeAvailability (c.targetDates.getD []) fetch = some b →
      (runCycle (some c) st tgt now fetch).notifies =
        if !((st.map (fun s => s.has)).getD false) && b then 1 else 0) := by
  have gen : ∀ (st : Option WatchStateDoc) (now : Int)
      (fetch : Option String → CheckAvailabilityResult) (b : Bool),
      passesGates (some c) st tgt now = true →
      sortJoinKey ((st.bind (fun s => s.checkedTargetDates)).getD [])
        = sortJoinKey (c.targetDates.getD []) →
      observeAvailability (c.targetDates.getD []) fetch = some b →
      (runCycle (some c) st tgt now fetch).notifies =
        if !((st.map (fun s => s.has)).getD false) && b then 1 else 0 := by
    intro st now fetch b hg hsame' hobs
    simp [runCycle, hg, hobs, hsame']
  have hw : (runCycle (some c) (some s0) tgt now1 fetch1).write =
      some ⟨true, now1, some now1, some (c.targetDates.getD [])⟩ := by
    simp [runCycle, hg1, hobs1, hsame, h0, updateWatchState]
  refine ⟨?_, ?_, ?_, gen⟩
  · have h1 := gen (some s0) now1 fetch1 true hg1 (by simpa using hsame) hobs1
    simpa [h0] using h1
  · rw [hw]
    rfl
  · rw [hw] at hg2 ⊢
    have h2 := gen (some ⟨true, now1, some now1, some (c.targetDates.getD [])⟩) now2 fetch2 true
      hg2 (by simp) hobs2
    simpa using h2

/-- Witness for C3 at a concrete two-cycle run: one attempt in the first cycle,
none in the second. -/
theorem rising_edge_notifies_once_witness :
    (runCycle (some cfgW) (some s0W) (some tgtW) 600000 fW).notifies = 1 ∧
    (runCycle (some cfgW) (runCycle (some cfgW) (some s0W) (some tgtW) 600000 fW).write
      (some tgtW) 1200000 fW).notifies = 0 := by
  have h := rising_edge_notifies_once cfgW s0W (some tgtW) 600000 1200000 fW fW
    (by decide) (by decide) (by decide) (by decide) (by decide) (by decide)
  exact ⟨h.1, h.2.2.1⟩

/-- C2 counterexample: for `htmlNoHeader` and target date 2025-01-03 no header
column matches (there are no `cl-day` headers at all), yet the detector reports
`hasAvailability = true` — the claimed unconditional `false, []` is refuted.
The detector falls back to the generic day-proximity detection, which sees the
day number 3 next to a ● marker. -/
theorem detect_missing_column_counterexample :
    findDateColumnIndex htmlNoHeader.data (parseMonthDayStrings "2025-01-03").1.data
        (parseMonthDayStrings "2025-01-03").2.data = none ∧
    detectAvailabilityWithSlots htmlNoHeader (some "2025-01-03") ≠ ⟨false, []⟩ ∧
    detectAvailabilityWithSlots htmlNoHeader (some "2025-01-03") = ⟨true, []⟩ := by
  decide

/-- C2 (amended): when the target date matches no header column, the detector
returns the generic day-proximity fallback verdict with an empty time-slot
list — `false, []` exactly when the fallback also finds nothing — and, being a
total function, never returns an error.  The no-column hypothesis respects the
header regex's `i` flag: on `htmlMixedWeek`, whose matching header is the
upper-case `<TH>`, the column *is* found (index 1), so such markup is outside
this fallback branch, as in the source. -/
theorem detect_missing_column_generic_fallback :
    (∀ (html td : String), td ≠ "" →
      findDateColumnIndex html.data (parseMonthDayStrings td).1.data
        (parseMonthDayStrings td).2.data = none →
      detectAvailabilityWithSlots html (some td) =
        ⟨checkDayAvailabilityGeneric html.data (parseMonthDayStrings td).2.data, []⟩) ∧
    findDateColumnIndex htmlMixedWeek.data (parseMonthDayStrings "2025-01-03").1.data
      (parseMonthDayStrings "2025-01-03").2.data = some 1 := by
  refine ⟨?_, by decide⟩
  intro html td hne hcol
  have h' : (td == "") = false := by simpa using hne
  simp [detectAvailabilityWithSlots, h', hcol]

/-- Witness for the amended C2 at `htmlNoHeader`. -/
theorem detect_missing_column_generic_fallback_witness :
    detectAvailabilityWithSlots htmlNoHeader (some "2025-01-03") =
      ⟨checkDayAvailabilityGeneric htmlNoHeader.data
        (parseMonthDayStrings "2025-01-03").2.data, []⟩ :=
  detect_missing_column_generic_fallback.1 htmlNoHeader "2025-01-03" (by decide) (by decide)

/-- C4: when a header column matches (the first match winning inside
`findDateColumnIndex`), the verdict is the column's slot walk —
`hasAvailability` iff the collected slot list is non-empty — and on the
spec's concrete week (`1/2 1/3 1/4`, ● at column 1, time 12:00) the detector
returns `(true, ["12:00"])` for Jan 3 and `(false, [])` for Jan 2.  Header
indexing and the column walk honour the regexes' `i` flag: on `htmlMixedWeek`
the upper-case `<TH>1/2</TH>` header counts, so `1/3` is column 1 and the walk
through upper-case rows/cells still pairs `12:00` with the ● cell. -/
theorem column_found_slot_detection :
    (∀ (html td : String) (i : Nat), td ≠ "" →
      findDateColumnIndex html.data (parseMonthDayStrings td).1.data
          (parseMonthDayStrings td).2.data = some i →
      detectAvailabilityWithSlots html (some td) =
        ⟨!(getColumnAvailableTimeSlots html.data i).isEmpty,
         getColumnAvailableTimeSlots html.data i⟩) ∧
    findDateColumnIndex htmlWeek.data "1".data "3".data = some 1 ∧
    detectAvailabilityWithSlots htmlWeek (some "2025-01-03") = ⟨true, ["12:00"]⟩ ∧
    detectAvailabilityWithSlots htmlWeek (some "2025-01-02") = ⟨false, []⟩ ∧
    findDateColumnIndex htmlMixedWeek.data "1".data "3".data = some 1 ∧
    detectAvailabilityWithSlots htmlMixedWeek (some "2025-01-03") = ⟨true, ["12:00"]⟩ ∧
    detectAvailabilityWithSlots htmlMixedWeek (some "2025-01-02") = ⟨false, []⟩ := by
  refine ⟨?_, by decide, by decide, by decide, by decide, by decide, by decide⟩
  intro html td i hne hcol
  have h' : (td == "") = false := by simpa using hne
  simp [detectAvailabilityWithSlots, h', hcol]

/-- Witness for C4's general part at `htmlWeek`, column 1. -/
theorem column_found_slot_detection_witness :
    detectAvailabilityWithSlots htmlWeek (some "2025-01-03") =
      ⟨!(getColumnAvailableTimeSlots htmlWeek.data 1).isEmpty,
       getColumnAvailableTimeSlots htmlWeek.data 1⟩ :=
  column_found_slot_detection.1 htmlWeek "2025-01-03" 1 (by decide) (by decide)

/-- C5: with no target date the verdict is computed from the data region alone
when the `cl-container` can be located (any `cl-day-content` cell with a
marker), so glyphs outside the container — as in `htmlLegendOnly`'s legend —
never count; only without a locatable container does the tightly-wrapped
whole-text scan `>●<` / `>▲<` apply.  Time slots are always empty here.
Container location honours the regex's `i` flag: the upper-case
`<TABLE CLASS="cl-container">` of `htmlUpperContainer` *is* a locatable
container, so despite the `>●<` legend outside it (which the whole-text
fallback would have counted) the verdict is `false`. -/
theorem no_filter_data_region_scoping :
    (∀ (html : String) (container : List Char), containerOf html.data = some container →
      detectAvailabilityWithSlots html none =
        ⟨(dayContentCells container).any hasMarker, []⟩) ∧
    (∀ html : String, containerOf html.data = none →
      detectAvailabilityWithSlots html none =
        ⟨containsSub ">●<".data html.data || containsSub ">▲<".data html.data, []⟩) ∧
    hasMarker htmlLegendOnly.data = true ∧
    detectAvailabilityWithSlots htmlLegendOnly none = ⟨false, []⟩ ∧
    (containerOf htmlUpperContainer.data).isSome = true ∧
    containsSub ">●<".data htmlUpperContainer.data = true ∧
    detectAvailabilityWithSlots htmlUpperContainer none = ⟨false, []⟩ := by
  refine ⟨?_, ?_, by decide, by decide, by decide, by decide, by decide⟩
  · intro html container h
    simp [detectAvailabilityWithSlots, noDateDetect, h]
  · intro html h
    simp [detectAvailabilityWithSlots, noDateDetect, h]

/-- Witness for C5 at `htmlLegendOnly` and its concrete data region. -/
theorem no_filter_data_region_scoping_witness :
    detectAvailabilityWithSlots htmlLegendOnly none =
      ⟨(dayContentCells legendContainer.data).any hasMarker, []⟩ :=
  no_filter_data_region_scoping.1 htmlLegendOnly legendContainer.data (by decide)

/-- C9: `checkAvailability` is total (never throws); its `error` field is
populated exactly when the outbound read did not succeed — `Fetch error: …` on
a transport failure, `HTTP status: statusText` on a non-ok response — and on
success the detector's verdict is returned untouched with `error` absent. -/
theorem fetcher_error_xor_verdict (net : String → Except String HttpResponse)
    (d : Option String) :
    (∀ msg, net (buildUrl d) = .error msg →
      checkAvailability net d = ⟨false, [], some ("Fetch error: " ++ msg)⟩) ∧
    (∀ resp, net (buildUrl d) = .ok resp → resp.ok = false →
      checkAvailability net d =
        ⟨false, [], some ("HTTP " ++ toString resp.status ++ ": " ++ resp.statusText)⟩) ∧
    (∀ resp, net (buildUrl d) = .ok resp → resp.ok = true →
      checkAvailability net d =
        ⟨(detectAvailabilityWithSlots resp.body d).hasAvailability,
         (detectAvailabilityWithSlots resp.body d).timeSlots, none⟩) ∧
    ((checkAvailability net d).error.isSome ↔
      ¬ ∃ resp, net (buildUrl d) = .ok resp ∧ resp.ok = true) := by
  cases h : net (buildUrl d) with
  | error msg =>
    refine ⟨?_, ?_, ?_, ?_⟩
    · intro m hm
      injection hm with hme
      subst hme
      simp [checkAvailability, h]
    · intro resp hr
      simp at hr
    · intro resp hr
      simp at hr
    · simp [checkAvailability, h]
  | ok resp =>
    by_cases hok : resp.ok
    · refine ⟨?_, ?_, ?_, ?_⟩
      · intro m hm
        simp at hm
      · intro r hr hro
        injection hr with hre
        subst hre
        exact absurd hok (by simp [hro])
      · intro r hr _
        injection hr with hre
        subst hre
        simp [checkAvailability, h, hok]
      · simp [checkAvailability, h, hok]
    · refine ⟨?_, ?_, ?_, ?_⟩
      · intro m hm
        simp at hm
      · intro r hr _
        injection hr with hre
        subst hre
        simp [checkAvailability, h, Bool.eq_false_iff.mpr hok]
      · intro r hr hro
        injection hr with hre
        subst hre
        exact absurd hro hok
      · simp [checkAvailability, h, Bool.eq_false_iff.mpr hok, hok]

/-- Witness for C9 at a concrete transport failure. -/
theorem fetcher_error_xor_verdict_witness :
    checkAvailability (fun _ => .error "boom") none =
      ⟨false, [], some ("Fetch error: " ++ "boom")⟩ :=
  (fetcher_error_xor_verdict (fun _ => .error "boom") none).1 "boom" rfl

/-- C10 counterexample: on `htmlNoHeader` with target date 2025-01-03 the older
detector returns `false` (no header column, no fallback) while the current one
returns `true` (generic fallback) — the two revisions are not equivalent on the
boolean verdict. -/
theorem old_new_detector_disagree :
    detectAvailabilityOld htmlNoHeader (some "2025-01-03") = false ∧
    detectAvailability htmlNoHeader (some "2025-01-03") = true := by
  decide

/-- C10 (amended): the two detector revisions agree on the boolean verdict
whenever no target date is given (their no-filter branches are identical
code); with a target date they can differ, as the counterexample shows. -/
theorem old_new_detector_agree_no_filter (html : String) :
    detectAvailabilityOld html none = (detectAvailabilityWithSlots html none).hasAvailability :=
  rfl

end SaunaReserve
